import Mathlib

/-!
# Verification of the instance-creation and device-selection pipeline

A shallow embedding of the Go program `main.go` of `delaneyj/learnvulkan`
(window/instance bootstrap and physical-device selection for a Vulkan
"hello triangle" application), together with proofs about the claims of
its specification.

Conventions of the embedding:

* A Go slice that is sorted in place is modelled as a `List α`; Go `int`
  indices are `Int`.  `getGo l i` reads index `i` (junk `default` outside
  the slice, which the algorithms never read on the ranges they are
  invoked with) and `swapGo l i j` is `data.Swap(i, j)` (identity outside
  bounds, likewise never exercised: Go would panic there).
* Loops are modelled by structural recursion on an explicit iteration
  budget.  Every budget is chosen so that it reaches `0` exactly when the
  corresponding Go loop guard fails (or strictly after the loop's natural
  exit), so the embedded function computes exactly what the Go loop does.
* `uint32` arithmetic is `Nat` arithmetic reduced `% 2^32`; `uint64`
  (the xorshift generator of `sort`) is `Nat` arithmetic `% 2^64`.
* Fallible runtime calls are modelled by `Except` values supplied as
  inputs (the environment decides whether each call succeeds).
* Nil handles (`vk.Instance`, `vk.PhysicalDevice`) are modelled as
  `Option.none` resp. `0`.

`pickPhysicalDevice` sorts its candidates with Go's `sort.Slice`, which
is pattern-defeating quicksort (`pdqsort_func` and its helpers from
`sort/zsortfunc.go` of the Go standard library, the implementation used
since Go 1.19).  The whole algorithm is embedded below, because the
stability behaviour of the selection depends on it.
-/

/-- Read index `i` of the slice modelled by `l` (Go `data[i]`). -/
def getGo {α : Type} [Inhabited α] (l : List α) (i : Int) : α :=
  if 0 ≤ i then l.getD i.toNat default else default

/-- Go's `data.Swap(i, j)` on the slice modelled by `l` (identity outside
bounds, where Go would panic; the algorithms never swap out of bounds on the
ranges they are invoked with). -/
def swapGo {α : Type} (l : List α) (i j : Int) : List α :=
  match l.get? i.toNat, l.get? j.toNat with
  | some x, some y => if 0 ≤ i ∧ 0 ≤ j then (l.set i.toNat y).set j.toNat x else l
  | _, _ => l

/-- Go's `bits.Len` on `uint`: number of bits required to represent `n`. -/
def bitsLen (n : Nat) : Nat :=
  if n = 0 then 0 else Nat.log2 n + 1

/-- One step of Go `sort`'s xorshift generator (`xorshift.Next`),
on `uint64` values: `r ^= r << 13; r ^= r >> 7; r ^= r << 17`. -/
def xorshiftNext (r : Nat) : Nat :=
  let r := (r ^^^ (r <<< 13)) % 18446744073709551616
  let r := r ^^^ (r >>> 7)
  (r ^^^ (r <<< 17)) % 18446744073709551616

/-- Inner loop of Go's `insertionSort_func`:
`for j := i; j > a && data.Less(j, j-1); j-- { data.Swap(j, j-1) }`.
The budget is `(j - a).toNat`, which is `0` exactly when `j > a` fails. -/
def insertionSortInner {α : Type} [Inhabited α] (less : α → α → Bool) :
    Nat → List α → Int → Int → List α
  | 0, l, _, _ => l
  | fuel + 1, l, a, j =>
    if a < j ∧ less (getGo l j) (getGo l (j - 1)) = true then
      insertionSortInner less fuel (swapGo l j (j - 1)) a (j - 1)
    else l

/-- Outer loop of Go's `insertionSort_func`: `for i := a + 1; i < b; i++`.
The budget is `(b - i).toNat`, which is `0` exactly when `i < b` fails. -/
def insertionSortOuter {α : Type} [Inhabited α] (less : α → α → Bool) :
    Nat → List α → Int → Int → Int → List α
  | 0, l, _, _, _ => l
  | fuel + 1, l, a, i, b =>
    if i < b then
      insertionSortOuter less fuel (insertionSortInner less (i - a).toNat l a i) a (i + 1) b
    else l

/-- Go's `insertionSort_func(data, a, b)`. -/
def insertionSortGo {α : Type} [Inhabited α] (less : α → α → Bool) (l : List α) (a b : Int) :
    List α :=
  insertionSortOuter less (b - (a + 1)).toNat l a (a + 1) b

/-- Go's `siftDown_func(data, lo, hi, first)` (the `root` loop).  The budget
`(hi - root).toNat` suffices because `child ≥ root + 1` on every step. -/
def siftDownGo {α : Type} [Inhabited α] (less : α → α → Bool) :
    Nat → List α → Int → Int → Int → List α
  | 0, l, _, _, _ => l
  | fuel + 1, l, root, hi, first =>
    let child := 2 * root + 1
    if hi ≤ child then l
    else
      let child :=
        if child + 1 < hi ∧ less (getGo l (first + child)) (getGo l (first + child + 1)) = true then
          child + 1
        else child
      if less (getGo l (first + root)) (getGo l (first + child)) = true then
        siftDownGo less fuel (swapGo l (first + root) (first + child)) child hi first
      else l

/-- Heap-construction loop of Go's `heapSort_func`:
`for i := (hi - 1) / 2; i >= 0; i-- { siftDown(data, i, hi, first) }`.
The budget is `(i + 1).toNat`, `0` exactly when `i >= 0` fails. -/
def heapBuildGo {α : Type} [Inhabited α] (less : α → α → Bool) :
    Nat → List α → Int → Int → Int → List α
  | 0, l, _, _, _ => l
  | fuel + 1, l, i, hi, first =>
    if 0 ≤ i then
      heapBuildGo less fuel (siftDownGo less (hi - i).toNat l i hi first) (i - 1) hi first
    else l

/-- Pop loop of Go's `heapSort_func`:
`for i := hi - 1; i >= 0; i-- { data.Swap(first, first+i); siftDown(data, lo, i, first) }`
with `lo = 0`.  The budget is `(i + 1).toNat`. -/
def heapPopGo {α : Type} [Inhabited α] (less : α → α → Bool) :
    Nat → List α → Int → Int → List α
  | 0, l, _, _ => l
  | fuel + 1, l, i, first =>
    if 0 ≤ i then
      heapPopGo less fuel (siftDownGo less i.toNat (swapGo l first (first + i)) 0 i first)
        (i - 1) first
    else l

/-- Go's `heapSort_func(data, a, b)`. -/
def heapSortGo {α : Type} [Inhabited α] (less : α → α → Bool) (l : List α) (a b : Int) :
    List α :=
  let first := a
  let hi := b - a
  let l := heapBuildGo less ((hi - 1) / 2 + 1).toNat l ((hi - 1) / 2) hi first
  heapPopGo less hi.toNat l (hi - 1) first

/-- Go's `breakPatterns_func(data, a, b)`: three pseudo-random swaps
(xorshift seeded with the length) when the length is at least 8. -/
def breakPatternsGo {α : Type} (l : List α) (a b : Int) : List α :=
  let length := b - a
  if 8 ≤ length then
    let modulus : Nat := 1 <<< bitsLen length.toNat
    let idx := a + (length / 4) * 2 - 1
    let r1 := xorshiftNext length.toNat
    let o1 : Int := (r1 &&& (modulus - 1) : Nat)
    let o1 := if length ≤ o1 then o1 - length else o1
    let l := swapGo l (idx - 1 + 0) (a + o1)
    let r2 := xorshiftNext r1
    let o2 : Int := (r2 &&& (modulus - 1) : Nat)
    let o2 := if length ≤ o2 then o2 - length else o2
    let l := swapGo l (idx - 1 + 1) (a + o2)
    let r3 := xorshiftNext r2
    let o3 : Int := (r3 &&& (modulus - 1) : Nat)
    let o3 := if length ≤ o3 then o3 - length else o3
    swapGo l (idx - 1 + 2) (a + o3)
  else l

/-- The `sortedHint` values of Go's `sort` package. -/
inductive SortedHint : Type
  | increasing
  | decreasing
  | unknown
deriving DecidableEq

/-- Go's `order2_func`: order two indices by the data they point to,
counting a swap when they are exchanged. -/
def order2Go {α : Type} [Inhabited α] (less : α → α → Bool) (l : List α) (a b : Int)
    (swaps : Nat) : Int × Int × Nat :=
  if less (getGo l b) (getGo l a) = true then (b, a, swaps + 1) else (a, b, swaps)

/-- Go's `median_func`: index of the median of three. -/
def medianGo {α : Type} [Inhabited α] (less : α → α → Bool) (l : List α) (a b c : Int)
    (swaps : Nat) : Int × Nat :=
  match order2Go less l a b swaps with
  | (a, b, swaps) =>
    match order2Go less l b c swaps with
    | (b, _c, swaps) =>
      match order2Go less l a b swaps with
      | (_a, b, swaps) => (b, swaps)

/-- Go's `medianAdjacent_func`: median of `data[a-1]`, `data[a]`, `data[a+1]`. -/
def medianAdjacentGo {α : Type} [Inhabited α] (less : α → α → Bool) (l : List α) (a : Int)
    (swaps : Nat) : Int × Nat :=
  medianGo less l (a - 1) a (a + 1) swaps

/-- Go's `choosePivot_func`: static pivot below length 8, median-of-three up
to length 49, Tukey ninther from length 50; the swap count gives the hint
(`0` increasing, `12` decreasing). -/
def choosePivotGo {α : Type} [Inhabited α] (less : α → α → Bool) (l : List α) (a b : Int) :
    Int × SortedHint :=
  let len := b - a
  let i := a + len / 4 * 1
  let j := a + len / 4 * 2
  let k := a + len / 4 * 3
  let js : Int × Nat :=
    if 8 ≤ len then
      if 50 ≤ len then
        match medianAdjacentGo less l i 0 with
        | (i, swaps) =>
          match medianAdjacentGo less l j swaps with
          | (j, swaps) =>
            match medianAdjacentGo less l k swaps with
            | (k, swaps) => medianGo less l i j k swaps
      else medianGo less l i j k 0
    else (j, 0)
  if js.2 = 0 then (js.1, SortedHint.increasing)
  else if js.2 = 12 then (js.1, SortedHint.decreasing)
  else (js.1, SortedHint.unknown)

/-- Go's `reverseRange_func`: `i, j := a, b-1; for i < j { Swap(i, j); i++; j-- }`.
The budget `(j - i).toNat` runs out only once `i < j` has failed. -/
def reverseRangeGo {α : Type} : Nat → List α → Int → Int → List α
  | 0, l, _, _ => l
  | fuel + 1, l, i, j =>
    if i < j then reverseRangeGo fuel (swapGo l i j) (i + 1) (j - 1) else l

/-- Scan loop `for i < b && !data.Less(i, i-1) { i++ }` of Go's
`partialInsertionSort_func`.  Budget `(b - i).toNat`. -/
def pisScan {α : Type} [Inhabited α] (less : α → α → Bool) : Nat → List α → Int → Int → Int
  | 0, _, i, _ => i
  | fuel + 1, l, i, b =>
    if i < b ∧ less (getGo l i) (getGo l (i - 1)) = false then pisScan less fuel l (i + 1) b
    else i

/-- Left-shift loop of Go's `partialInsertionSort_func`:
`for j := i - 1; j >= 1; j-- { if !Less(j, j-1) break; Swap(j, j-1) }`.
Budget `j.toNat`, `0` exactly when `j >= 1` fails. -/
def pisShiftLeft {α : Type} [Inhabited α] (less : α → α → Bool) : Nat → List α → Int → List α
  | 0, l, _ => l
  | fuel + 1, l, j =>
    if 1 ≤ j ∧ less (getGo l j) (getGo l (j - 1)) = true then
      pisShiftLeft less fuel (swapGo l j (j - 1)) (j - 1)
    else l

/-- Right-shift loop of Go's `partialInsertionSort_func`:
`for j := i + 1; j < b; j++ { if !Less(j, j-1) break; Swap(j, j-1) }`.
Budget `(b - j).toNat`. -/
def pisShiftRight {α : Type} [Inhabited α] (less : α → α → Bool) :
    Nat → List α → Int → Int → List α
  | 0, l, _, _ => l
  | fuel + 1, l, j, b =>
    if j < b ∧ less (getGo l j) (getGo l (j - 1)) = true then
      pisShiftRight less fuel (swapGo l j (j - 1)) (j + 1) b
    else l

/-- The `maxSteps`-bounded outer loop of Go's `partialInsertionSort_func`
(`maxSteps = 5`, `shortestShifting = 50`); returns the data together with
Go's boolean result ("the slice is sorted at the end"). -/
def pisLoop {α : Type} [Inhabited α] (less : α → α → Bool) :
    Nat → List α → Int → Int → Int → List α × Bool
  | 0, l, _, _, _ => (l, false)
  | steps + 1, l, a, b, i =>
    let i := pisScan less (b - i).toNat l i b
    if i = b then (l, true)
    else if b - a < 50 then (l, false)
    else
      let l := swapGo l i (i - 1)
      let l := if 2 ≤ i - a then pisShiftLeft less (i - 1).toNat l (i - 1) else l
      let l := if 2 ≤ b - i then pisShiftRight less (b - (i + 1)).toNat l (i + 1) b else l
      pisLoop less steps l a b i

/-- Go's `partialInsertionSort_func(data, a, b)`. -/
def halfInsertionSortGo {α : Type} [Inhabited α] (less : α → α → Bool) (l : List α)
    (a b : Int) : List α × Bool :=
  pisLoop less 5 l a b (a + 1)

/-- Scan `for i <= j && data.Less(i, a) { i++ }` of Go's `partition_func`.
Budget `(j + 1 - i).toNat`, `0` exactly when `i <= j` fails. -/
def partScanLT {α : Type} [Inhabited α] (less : α → α → Bool) :
    Nat → List α → Int → Int → Int → Int
  | 0, _, _, i, _ => i
  | fuel + 1, l, a, i, j =>
    if i ≤ j ∧ less (getGo l i) (getGo l a) = true then partScanLT less fuel l a (i + 1) j
    else i

/-- Scan `for i <= j && !data.Less(j, a) { j-- }` of Go's `partition_func`.
Budget `(j + 1 - i).toNat`. -/
def partScanGE {α : Type} [Inhabited α] (less : α → α → Bool) :
    Nat → List α → Int → Int → Int → Int
  | 0, _, _, _, j => j
  | fuel + 1, l, a, i, j =>
    if i ≤ j ∧ less (getGo l j) (getGo l a) = false then partScanGE less fuel l a i (j - 1)
    else j

/-- Main loop of Go's `partition_func` (scan, scan, break on `i > j`, swap).
Running out of budget returns the same state as an immediate break. -/
def partitionLoopGo {α : Type} [Inhabited α] (less : α → α → Bool) :
    Nat → List α → Int → Int → Int → List α × Int
  | 0, l, _, _, j => (l, j)
  | fuel + 1, l, a, i, j =>
    let i := partScanLT less (j + 1 - i).toNat l a i j
    let j := partScanGE less (j + 1 - i).toNat l a i j
    if j < i then (l, j)
    else partitionLoopGo less fuel (swapGo l i j) a (i + 1) (j - 1)

/-- Go's `partition_func(data, a, b, pivot)`: returns the data, the new pivot
position, and `alreadyPartitioned`. -/
def partitionGo {α : Type} [Inhabited α] (less : α → α → Bool) (l : List α)
    (a b pivot : Int) : List α × Int × Bool :=
  let l := swapGo l a pivot
  let i := a + 1
  let j := b - 1
  let i := partScanLT less (j + 1 - i).toNat l a i j
  let j := partScanGE less (j + 1 - i).toNat l a i j
  if j < i then (swapGo l j a, j, true)
  else
    match partitionLoopGo less ((j - 1) + 1 - (i + 1)).toNat.succ (swapGo l i j) a (i + 1)
        (j - 1) with
    | (l, j) => (swapGo l j a, j, false)

/-- Scan `for i <= j && !data.Less(a, i) { i++ }` of Go's `partitionEqual_func`. -/
def peScanI {α : Type} [Inhabited α] (less : α → α → Bool) :
    Nat → List α → Int → Int → Int → Int
  | 0, _, _, i, _ => i
  | fuel + 1, l, a, i, j =>
    if i ≤ j ∧ less (getGo l a) (getGo l i) = false then peScanI less fuel l a (i + 1) j
    else i

/-- Scan `for i <= j && data.Less(a, j) { j-- }` of Go's `partitionEqual_func`. -/
def peScanJ {α : Type} [Inhabited α] (less : α → α → Bool) :
    Nat → List α → Int → Int → Int → Int
  | 0, _, _, _, j => j
  | fuel + 1, l, a, i, j =>
    if i ≤ j ∧ less (getGo l a) (getGo l j) = true then peScanJ less fuel l a i (j - 1)
    else j

/-- Main loop of Go's `partitionEqual_func`; returns the data and the final `i`. -/
def partitionEqualLoopGo {α : Type} [Inhabited α] (less : α → α → Bool) :
    Nat → List α → Int → Int → Int → List α × Int
  | 0, l, _, i, _ => (l, i)
  | fuel + 1, l, a, i, j =>
    let i := peScanI less (j + 1 - i).toNat l a i j
    let j := peScanJ less (j + 1 - i).toNat l a i j
    if j < i then (l, i)
    else partitionEqualLoopGo less fuel (swapGo l i j) a (i + 1) (j - 1)

/-- Go's `partitionEqual_func(data, a, b, pivot)`: returns the data and the
new pivot position. -/
def partitionEqualGo {α : Type} [Inhabited α] (less : α → α → Bool) (l : List α)
    (a b pivot : Int) : List α × Int :=
  let l := swapGo l a pivot
  partitionEqualLoopGo less ((b - 1) + 1 - (a + 1)).toNat.succ l a (a + 1) (b - 1)

/-- Go's `pdqsort_func(data, a, b, limit)` with the loop-carried flags
`wasBalanced` and `wasPartitioned` made explicit (both start `true`; the
recursive sub-calls of the Go code re-initialise them to `true`, the
iterations of its outer `for` loop carry them over).  The budget is the
length `(b - a).toNat`: every iteration and every sub-call works on a
strictly shorter range, and a range of length `≤ 0` is returned unchanged
exactly as Go's insertion sort would leave it. -/
def pdqsortGo {α : Type} [Inhabited α] (less : α → α → Bool) :
    Nat → List α → Int → Int → Int → Bool → Bool → List α
  | 0, l, _, _, _, _, _ => l
  | fuel + 1, l, a, b, limit, wasBalanced, wasPartitioned =>
    let length := b - a
    if length ≤ 12 then insertionSortGo less l a b
    else if limit = 0 then heapSortGo less l a b
    else
      let ll : List α × Int :=
        if wasBalanced = false then (breakPatternsGo l a b, limit - 1) else (l, limit)
      let l := ll.1
      let limit := ll.2
      let ph := choosePivotGo less l a b
      let lph : List α × Int × SortedHint :=
        if ph.2 = SortedHint.decreasing then
          (reverseRangeGo ((b - 1) - a).toNat l a (b - 1), (b - 1) - (ph.1 - a),
            SortedHint.increasing)
        else (l, ph.1, ph.2)
      let l := lph.1
      let pivot := lph.2.1
      let hint := lph.2.2
      let ls : List α × Bool :=
        if wasBalanced = true ∧ wasPartitioned = true ∧ hint = SortedHint.increasing then
          halfInsertionSortGo less l a b
        else (l, false)
      let l := ls.1
      if ls.2 = true then l
      else if 0 < a ∧ less (getGo l (a - 1)) (getGo l pivot) = false then
        match partitionEqualGo less l a b pivot with
        | (l, mid) => pdqsortGo less fuel l mid b limit wasBalanced wasPartitioned
      else
        match partitionGo less l a b pivot with
        | (l, mid, alreadyPartitioned) =>
          let wasPartitioned := alreadyPartitioned
          let leftLen := mid - a
          let rightLen := b - mid
          let balanceThreshold := length / 8
          let wasBalanced := decide (balanceThreshold ≤ min leftLen rightLen)
          if leftLen < rightLen then
            let l := pdqsortGo less fuel l a mid limit true true
            pdqsortGo less fuel l (mid + 1) b limit wasBalanced wasPartitioned
          else
            let l := pdqsortGo less fuel l (mid + 1) b limit true true
            pdqsortGo less fuel l a mid limit wasBalanced wasPartitioned

/-- Go's `sort.Slice(x, less)`:
`pdqsort_func(lessSwap{less, swap}, 0, length, bits.Len(uint(length)))`. -/
def sortSliceGo {α : Type} [Inhabited α] (less : α → α → Bool) (l : List α) : List α :=
  let n := l.length
  pdqsortGo less n l 0 (n : Nat) ((bitsLen n : Nat) : Int) true true

/-! ## The application (`main.go`) -/

/-- The constant `enableValidationLayers` of `main.go`. -/
def enableValidationLayers : Bool := true

/-- The package-level `validationLayerNames` slice of `main.go`. -/
def validationLayerNames : List String :=
  ["VK_LAYER_LUNARG_standard_validation"]

/-- The pure core of `checkValidationLayerSupport`: the double loop
`for _, vln := range validationLayerNames { for _, aln := range availableLayerNames { if vln == aln ... } }`,
parameterised by the requested list (the code applies it to the package-level
`validationLayerNames`) and by the available layer names obtained from the
(two-call) layer enumeration. -/
def checkValidationLayerSupport (requested availableLayerNames : List String) : Bool :=
  requested.all fun vln => availableLayerNames.any fun aln => vln == aln

/-- `vk.ExtDebugReportExtensionName` of the `vulkan-go` bindings. -/
def extDebugReportExtensionName : String := "VK_EXT_debug_report"

/-- The body of `requiredExtensions` parameterised by the value of the
`enableValidationLayers` constant it reads:
`requiredExtensions := app.window.GetRequiredInstanceExtensions(); if enableValidationLayers { append(..., vk.ExtDebugReportExtensionName+"\x00") }`. -/
def requiredExtensionsWith (flag : Bool) (windowExtensions : List String) : List String :=
  if flag then windowExtensions ++ [extDebugReportExtensionName ++ "\x00"]
  else windowExtensions

/-- `app.requiredExtensions()` of `main.go`. -/
def requiredExtensions (windowExtensions : List String) : List String :=
  requiredExtensionsWith enableValidationLayers windowExtensions

/-- The mutable handle state of `HelloTriangleApplication` (window, instance,
debug callback); `none` models a nil handle. -/
structure HelloTriangleApplication where
  window : Option Nat
  inst : Option Nat
  debug : Option Nat
deriving DecidableEq

/-- The outcomes of the runtime calls `createInstance` performs, supplied as
input: the (two-call) instance-layer enumeration used by
`checkValidationLayerSupport`, the (two-call) instance-extension enumeration,
the window's required extensions, and the result of `vk.CreateInstance`. -/
structure CreateInstanceEnv where
  enumerateLayers : Except String (List String)
  enumerateExtensions : Except String (List String)
  windowExtensions : List String
  createInstanceCall : Except String Nat

/-- `app.createInstance()` of `main.go`: check validation layers (when
enabled), enumerate instance extensions, build the create info from
`requiredExtensions`, call `vk.CreateInstance`, and only then store the new
handle in `app.instance`.  Returns the updated application state and the
error result. -/
def createInstance (env : CreateInstanceEnv) (app : HelloTriangleApplication) :
    HelloTriangleApplication × Except String Unit :=
  let afterCheck : Except String Unit :=
    if enableValidationLayers then
      match env.enumerateLayers with
      | Except.error e => Except.error e
      | Except.ok availableLayerNames =>
        if checkValidationLayerSupport validationLayerNames availableLayerNames = false then
          Except.error "validation layers requested but not available"
        else Except.ok ()
    else Except.ok ()
  match afterCheck with
  | Except.error e => (app, Except.error e)
  | Except.ok () =>
    match env.enumerateExtensions with
    | Except.error e => (app, Except.error e)
    | Except.ok _availableInstanceExtensions =>
      let _req := requiredExtensions env.windowExtensions
      match env.createInstanceCall with
      | Except.error e => (app, Except.error e)
      | Except.ok inst => ({ app with inst := some inst }, Except.ok ())

/-- `vk.DebugReportErrorBit` (`VK_DEBUG_REPORT_ERROR_BIT_EXT = 0x08`). -/
def debugReportErrorBit : Nat := 8

/-- `vk.DebugReportWarningBit` (`VK_DEBUG_REPORT_WARNING_BIT_EXT = 0x02`). -/
def debugReportWarningBit : Nat := 2

/-- `vk.False` (`VK_FALSE = 0`). -/
def vkFalse : Nat := 0

/-- The log record emitted by `debugCallback`: the `[ERROR %d] %s on layer %s`
record, the `[WARN %d] %s on layer %s` record, or the
`[WARN] unknown debug message %d (layer %s)` record. -/
inductive DebugLogRecord : Type
  | errorRecord (messageCode : Int) (message layerPfx : String)
  | warnRecord (messageCode : Int) (message layerPfx : String)
  | unknownRecord (messageCode : Int) (layerPfx : String)
deriving DecidableEq

/-- `debugCallback` of `main.go`: classify by severity bits and return
`vk.Bool32(vk.False)`.  The object type, object, location and user data
parameters are received but not used, as in the code. -/
def debugCallback (flags : Nat) (_objectType : Nat) (_object : Nat) (_location : Nat)
    (messageCode : Int) (pLayerPfx : String) (pMessage : String) :
    DebugLogRecord × Nat :=
  if flags &&& debugReportErrorBit ≠ 0 then
    (DebugLogRecord.errorRecord messageCode pMessage pLayerPfx, vkFalse)
  else if flags &&& debugReportWarningBit ≠ 0 then
    (DebugLogRecord.warnRecord messageCode pMessage pLayerPfx, vkFalse)
  else
    (DebugLogRecord.unknownRecord messageCode pLayerPfx, vkFalse)

/-- `vk.PhysicalDeviceTypeDiscreteGpu` (`VK_PHYSICAL_DEVICE_TYPE_DISCRETE_GPU = 2`). -/
def physicalDeviceTypeDiscreteGpu : Nat := 2

/-- What the runtime reports for one enumerated physical device: its handle
(`0` models a nil `vk.PhysicalDevice`), its properties (`DeviceType`,
`Limits.MaxImageDimension2D`, `DeviceName`) and its features
(`GeometryShader`).  `maxImageDimension2D` is a `uint32`. -/
structure DeviceInfo where
  device : Nat
  deviceType : Nat
  maxImageDimension2D : Nat
  geometryShader : Bool
  deviceName : String
deriving DecidableEq

/-- The scoring loop body of `pickPhysicalDevice` (`var score uint32`;
`+= 1000` for a discrete GPU; `+= properties.Limits.MaxImageDimension2D`;
`score = 0` when the device reports geometry-shader support).  All
additions are `uint32` additions. -/
def deviceScore (d : DeviceInfo) : Nat :=
  let score : Nat := 0
  let score :=
    if d.deviceType = physicalDeviceTypeDiscreteGpu then (score + 1000) % 4294967296
    else score
  let score := (score + d.maxImageDimension2D) % 4294967296
  if d.geometryShader then 0 else score

/-- The local `deviceScore` struct of `pickPhysicalDevice` (renamed: the
scoring function above already carries the Go type's name). -/
structure DeviceScoreEntry where
  Device : Nat
  Name : String
  Score : Nat
deriving DecidableEq

instance : Inhabited DeviceScoreEntry := ⟨⟨0, "", 0⟩⟩

/-- One `candidates[i]` entry of `pickPhysicalDevice`. -/
def mkCandidate (d : DeviceInfo) : DeviceScoreEntry :=
  { Device := d.device, Name := d.deviceName, Score := deviceScore d }

/-- The comparator passed to `sort.Slice`:
`func(i, j int) bool { a, b := candidates[i], candidates[j]; return a.Score > b.Score }`. -/
def scoreGreater (x y : DeviceScoreEntry) : Bool := decide (y.Score < x.Score)

/-- The two failure modes of `pickPhysicalDevice`: `"no phyical device detected"`
when the enumeration yields zero devices, `"failed to find suitable GPU"` when
the chosen candidate's handle is nil. -/
inductive PickError : Type
  | noDeviceFound
  | noSuitableDevice
deriving DecidableEq

/-- `app.pickPhysicalDevice()` of `main.go`, given the device list the
(two-call) `vk.EnumeratePhysicalDevices` protocol reported (the claims under
verification condition on that enumeration succeeding).  Score every device,
sort the candidates by descending score with `sort.Slice`, take
`candidates[0]`, and fail if its handle is nil. -/
def pickPhysicalDevice (devices : List DeviceInfo) : Except PickError Nat :=
  if devices.length = 0 then Except.error PickError.noDeviceFound
  else
    let candidates := devices.map mkCandidate
    let sorted := sortSliceGo scoreGreater candidates
    let chosen := sorted.headD default
    if chosen.Device = 0 then Except.error PickError.noSuitableDevice
    else Except.ok chosen.Device

/-- The first-enumerated candidate of maximal score: the entry a stable
descending sort would put first.  (Matches the spec's reading of the
selection; used to state the stability claims.) -/
def firstMax (l : List DeviceScoreEntry) : DeviceScoreEntry :=
  match l with
  | [] => default
  | x :: xs => xs.foldl (fun m y => if m.Score < y.Score then y else m) x

/-! ## Concrete inputs used by the counterexamples and witnesses -/

/-- A discrete GPU with maximum 2D image dimension 4096 and no geometry
shader (scenario 1 of the spec). -/
def discreteDev : DeviceInfo := ⟨1, 2, 4096, false, "discrete"⟩

/-- An integrated GPU with maximum 2D image dimension 8192 and no geometry
shader (scenario 1 of the spec). -/
def integratedDev : DeviceInfo := ⟨2, 1, 8192, false, "integrated"⟩

/-- Thirteen integrated GPUs (handles 1..13, no geometry shader) whose
maximum 2D image dimensions — hence scores — are
`0, 2, 3, 2, 3, 1, 2, 0, 2, 1, 3, 0, 1`.  The maximal score 3 is attained
first by the 3rd enumerated device (handle 3) and also by the 5th
(handle 5). -/
def devs13 : List DeviceInfo :=
  [⟨1, 1, 0, false, "d1"⟩, ⟨2, 1, 2, false, "d2"⟩, ⟨3, 1, 3, false, "d3"⟩,
   ⟨4, 1, 2, false, "d4"⟩, ⟨5, 1, 3, false, "d5"⟩, ⟨6, 1, 1, false, "d6"⟩,
   ⟨7, 1, 2, false, "d7"⟩, ⟨8, 1, 0, false, "d8"⟩, ⟨9, 1, 2, false, "d9"⟩,
   ⟨10, 1, 1, false, "d10"⟩, ⟨11, 1, 3, false, "d11"⟩, ⟨12, 1, 0, false, "d12"⟩,
   ⟨13, 1, 1, false, "d13"⟩]

/-! ## Theorems about the claims -/

/-- C6: `checkValidationLayerSupport` returns `true` iff every requested
layer name has an exact (hence case-sensitive) match among the available
layer names; in particular the empty request is always supported. -/
theorem checkValidationLayerSupport_iff (requested available : List String) :
    (checkValidationLayerSupport requested available = true ↔
      ∀ r ∈ requested, r ∈ available) ∧
    checkValidationLayerSupport [] available = true := by
  constructor
  · simp only [checkValidationLayerSupport, List.all_eq_true, List.any_eq_true, beq_iff_eq]
    constructor
    · intro h r hr
      obtain ⟨a, ha, rfl⟩ := h r hr
      exact ha
    · intro h r hr
      exact ⟨r, h r hr, rfl⟩
  · rfl

/-- Witness for C6 at concrete inputs. -/
theorem checkValidationLayerSupport_iff_witness :
    checkValidationLayerSupport ["VK_LAYER_LUNARG_standard_validation"]
      ["other", "VK_LAYER_LUNARG_standard_validation"] = true :=
  (checkValidationLayerSupport_iff _ _).1.mpr (by simp)

/-- C8: the required-extension sequence is the window-required extensions in
order, with the debug-report extension name appended last exactly when
validation (diagnostics) is enabled; no deduplication happens (the length
always grows by exactly the conditional one element). -/
theorem requiredExtensions_spec (flag : Bool) (windowExtensions : List String) :
    requiredExtensionsWith flag windowExtensions =
      windowExtensions ++ (if flag then [extDebugReportExtensionName ++ "\x00"] else []) ∧
    (requiredExtensionsWith flag windowExtensions).length =
      windowExtensions.length + (if flag then 1 else 0) ∧
    (flag = true →
      (requiredExtensionsWith flag windowExtensions).getLast? =
        some (extDebugReportExtensionName ++ "\x00")) ∧
    requiredExtensions windowExtensions =
      windowExtensions ++ [extDebugReportExtensionName ++ "\x00"] := by
  cases flag <;>
    simp [requiredExtensionsWith, requiredExtensions, enableValidationLayers]

/-- Witness for C8 at a concrete input (note the window extension is not
deduplicated even though it equals the appended diagnostics extension). -/
theorem requiredExtensions_spec_witness :
    (requiredExtensionsWith true [extDebugReportExtensionName ++ "\x00"]).length = 2 :=
  (requiredExtensions_spec true [extDebugReportExtensionName ++ "\x00"]).2.1.trans rfl

/-- C9: the diagnostics callback logs an error record when the ERROR bit is
set, else a warning record when the WARNING bit is set, else an unclassified
record, and always returns `vk.False` (the "do not suppress" sentinel). -/
theorem debugCallback_classification (flags objectType object location : Nat)
    (messageCode : Int) (layerPfx msg : String) :
    (flags &&& debugReportErrorBit ≠ 0 →
      debugCallback flags objectType object location messageCode layerPfx msg =
        (DebugLogRecord.errorRecord messageCode msg layerPfx, vkFalse)) ∧
    (flags &&& debugReportErrorBit = 0 → flags &&& debugReportWarningBit ≠ 0 →
      debugCallback flags objectType object location messageCode layerPfx msg =
        (DebugLogRecord.warnRecord messageCode msg layerPfx, vkFalse)) ∧
    (flags &&& debugReportErrorBit = 0 → flags &&& debugReportWarningBit = 0 →
      debugCallback flags objectType object location messageCode layerPfx msg =
        (DebugLogRecord.unknownRecord messageCode layerPfx, vkFalse)) ∧
    (debugCallback flags objectType object location messageCode layerPfx msg).2 = vkFalse := by
  refine ⟨?_, ?_, ?_, ?_⟩
  · intro h
    simp [debugCallback, h]
  · intro h1 h2
    simp [debugCallback, h1, h2]
  · intro h1 h2
    simp [debugCallback, h1, h2]
  · unfold debugCallback
    split
    · rfl
    · split <;> rfl

/-- Witness for C9: a message carrying only the WARNING bit is logged as a
warning record and the callback returns `vk.False`. -/
theorem debugCallback_classification_witness :
    debugCallback 2 0 0 0 7 "layer" "msg" =
      (DebugLogRecord.warnRecord 7 "msg" "layer", vkFalse) :=
  (debugCallback_classification 2 0 0 0 7 "layer" "msg").2.1 (by decide) (by decide)

/-- C7: `createInstance` stores a handle in the context's instance field only
on success (exactly the handle the runtime's create call produced), and on
any failure leaves the field unset. -/
theorem createInstance_atomic (env : CreateInstanceEnv) (app : HelloTriangleApplication)
    (h : app.inst = none) :
    ((createInstance env app).2 = Except.ok () →
      ∃ handle, env.createInstanceCall = Except.ok handle ∧
        (createInstance env app).1.inst = some handle) ∧
    (∀ e, (createInstance env app).2 = Except.error e →
      (createInstance env app).1.inst = none) := by
  obtain ⟨el, ee, we, ci⟩ := env
  unfold createInstance
  cases el <;> cases ee <;> cases ci <;>
    simp [enableValidationLayers, h] <;>
    split <;> simp [h]

/-- Witness for C7 at a concrete successful environment. -/
theorem createInstance_atomic_witness :
    (createInstance
      ⟨Except.ok ["VK_LAYER_LUNARG_standard_validation"], Except.ok [], ["ext"],
        Except.ok 42⟩
      ⟨some 1, none, none⟩).1.inst = some 42 := by
  obtain ⟨handle, h1, h2⟩ :=
    (createInstance_atomic
      ⟨Except.ok ["VK_LAYER_LUNARG_standard_validation"], Except.ok [], ["ext"],
        Except.ok 42⟩
      ⟨some 1, none, none⟩ rfl).1 rfl
  have : handle = 42 := by
    have h1' : Except.ok (ε := String) 42 = Except.ok handle := h1
    cases h1'
    rfl
  rw [this] at h2
  exact h2

/-- C3: the score is a pure function of the device type, the maximum 2D image
dimension and the geometry-shader flag; with the flag set it is 0, otherwise
it is the `uint32` sum of the 1000 discrete-GPU bonus and the dimension
limit, and (absent the flag and `uint32` overflow) a discrete GPU scores
exactly 1000 more than a non-discrete one with the same dimension limit. -/
theorem deviceScore_pure_formula (d e : DeviceInfo) :
    (d.geometryShader = true → deviceScore d = 0) ∧
    (d.geometryShader = false →
      deviceScore d =
        ((if d.deviceType = physicalDeviceTypeDiscreteGpu then 1000 else 0) +
          d.maxImageDimension2D) % 4294967296) ∧
    (d.deviceType = e.deviceType → d.maxImageDimension2D = e.maxImageDimension2D →
      d.geometryShader = e.geometryShader → deviceScore d = deviceScore e) ∧
    (d.geometryShader = false → d.maxImageDimension2D + 1000 < 4294967296 →
      d.deviceType = physicalDeviceTypeDiscreteGpu →
      ∀ e2 : DeviceInfo, e2.geometryShader = false →
        e2.deviceType ≠ physicalDeviceTypeDiscreteGpu →
        e2.maxImageDimension2D = d.maxImageDimension2D →
        deviceScore d = deviceScore e2 + 1000) := by
  refine ⟨?_, ?_, ?_, ?_⟩
  · intro hgs
    simp [deviceScore, hgs]
  · intro hgs
    by_cases ht : d.deviceType = physicalDeviceTypeDiscreteGpu <;>
      simp [deviceScore, hgs, ht]
  · intro ht hm hgs
    simp [deviceScore, ht, hm, hgs]
  · intro hgs hnof ht e2 hgs2 ht2 hm2
    simp [deviceScore, hgs, hgs2, ht, ht2, hm2]
    omega

/-- Witness for C3 at concrete inputs: a discrete GPU scores exactly 1000
above an integrated one with the same dimension limit. -/
theorem deviceScore_pure_formula_witness :
    deviceScore ⟨1, 2, 4096, false, "a"⟩ = deviceScore ⟨2, 1, 4096, false, "b"⟩ + 1000 :=
  (deviceScore_pure_formula ⟨1, 2, 4096, false, "a"⟩ ⟨1, 2, 4096, false, "a"⟩).2.2.2
    rfl (by norm_num) rfl ⟨2, 1, 4096, false, "b"⟩ rfl (by decide) rfl

/-- C10: the score is computed in `uint32` arithmetic: a discrete GPU without
geometry-shader support whose dimension limit exceeds `2^32 - 1001` wraps
around and scores below a non-discrete device with dimension limit 1000. -/
theorem deviceScore_u32_wraparound (d small : DeviceInfo)
    (hd : d.deviceType = physicalDeviceTypeDiscreteGpu)
    (hgs : d.geometryShader = false)
    (hlo : 4294966295 < d.maxImageDimension2D)
    (hhi : d.maxImageDimension2D < 4294967296)
    (hs : small.geometryShader = false)
    (hsmall : small.maxImageDimension2D = 1000)
    (hstype : small.deviceType ≠ physicalDeviceTypeDiscreteGpu) :
    deviceScore d = 1000 + d.maxImageDimension2D - 4294967296 ∧
    deviceScore d < deviceScore small := by
  simp [deviceScore, hd, hgs, hs, hsmall, hstype]
  omega

/-- Witness for C10: a discrete GPU with the maximal `uint32` dimension limit
scores 999, less than an integrated GPU with limit 1000. -/
theorem deviceScore_u32_wraparound_witness :
    deviceScore ⟨1, 2, 4294967295, false, "big"⟩ = 999 ∧
    deviceScore ⟨1, 2, 4294967295, false, "big"⟩ < deviceScore ⟨2, 1, 1000, false, "small"⟩ := by
  have h :=
    deviceScore_u32_wraparound ⟨1, 2, 4294967295, false, "big"⟩ ⟨2, 1, 1000, false, "small"⟩
      rfl rfl (by norm_num) (by norm_num) rfl rfl (by decide)
  exact ⟨h.1.trans (by norm_num), h.2⟩

/-- C5: with the enumeration calls succeeding, `pickPhysicalDevice` fails
with the no-device error exactly when the enumerated set is empty; on a
non-empty set it proceeds to scoring and selection (returning either a
handle or the no-suitable-device error). -/
theorem noDeviceFound_iff_empty (devices : List DeviceInfo) :
    (pickPhysicalDevice devices = Except.error PickError.noDeviceFound ↔ devices = []) ∧
    (devices ≠ [] →
      pickPhysicalDevice devices = Except.error PickError.noSuitableDevice ∨
      ∃ handle, pickPhysicalDevice devices = Except.ok handle) := by
  cases devices with
  | nil => simp [pickPhysicalDevice]
  | cons d ds =>
    have hbody : pickPhysicalDevice (d :: ds) =
        (if ((sortSliceGo scoreGreater ((d :: ds).map mkCandidate)).headD default).Device = 0
          then Except.error PickError.noSuitableDevice
          else Except.ok ((sortSliceGo scoreGreater ((d :: ds).map mkCandidate)).headD
            default).Device) := by
      unfold pickPhysicalDevice
      rw [if_neg (by simp)]
    constructor
    · rw [hbody]
      constructor
      · intro hcontra
        split at hcontra <;> simp_all
      · intro hcontra
        exact absurd hcontra (List.cons_ne_nil d ds)
    · intro _
      rw [hbody]
      split
      · exact Or.inl rfl
      · exact Or.inr ⟨_, rfl⟩

/-- Witness for C5: the empty enumeration yields the no-device error. -/
theorem noDeviceFound_iff_empty_witness :
    pickPhysicalDevice [] = Except.error PickError.noDeviceFound :=
  (noDeviceFound_iff_empty []).1.mpr rfl

/-- C4: a single enumerated device with the geometry-shader flag set and a
valid (non-nil) handle is still selected — its score is forced to 0 but it
is the only candidate — and no no-suitable-device error is raised. -/
theorem single_gs_device_selected (d : DeviceInfo) (hgs : d.geometryShader = true)
    (hvalid : d.device ≠ 0) :
    deviceScore d = 0 ∧ pickPhysicalDevice [d] = Except.ok d.device := by
  constructor
  · simp [deviceScore, hgs]
  · have hbody : pickPhysicalDevice [d] =
        (if d.device = 0 then Except.error PickError.noSuitableDevice
          else Except.ok d.device) := rfl
    rw [hbody, if_neg hvalid]

/-- Witness for C4 at a concrete device. -/
theorem single_gs_device_selected_witness :
    pickPhysicalDevice [⟨7, 2, 4096, true, "gs"⟩] = Except.ok 7 :=
  (single_gs_device_selected ⟨7, 2, 4096, true, "gs"⟩ rfl (by decide)).2

/-- C2 counterexample: on one discrete GPU (dimension 4096, no geometry
shader, score 5096) and one integrated GPU (dimension 8192, no geometry
shader, score 8192), `pickPhysicalDevice` selects the integrated GPU
(handle 2), not the discrete one (handle 1) as the claim asserts. -/
theorem scenario1_discrete_loses_cex :
    deviceScore discreteDev = 5096 ∧ deviceScore integratedDev = 8192 ∧
    pickPhysicalDevice [discreteDev, integratedDev] = Except.ok integratedDev.device ∧
    integratedDev.device ≠ discreteDev.device :=
  ⟨rfl, rfl, rfl, by decide⟩

/-- C2 amended: in scenario 1 the integrated GPU wins, because its score
8192 exceeds the discrete GPU's 1000 + 4096 = 5096 and the sort is by
descending score. -/
theorem scenario1_integrated_wins :
    deviceScore discreteDev < deviceScore integratedDev ∧
    pickPhysicalDevice [discreteDev, integratedDev] = Except.ok 2 :=
  ⟨by decide, rfl⟩

/-- C1 counterexample: on `devs13` the scores are
`0, 2, 3, 2, 3, 1, 2, 0, 2, 1, 3, 0, 1` for handles `1 .. 13`; the maximal
score 3 is attained first by handle 3 (3rd enumerated) and also by handle 5
(5th enumerated), yet `pickPhysicalDevice` selects handle 5: with more than
12 candidates `sort.Slice` is not stable, so the first-enumerated candidate
of a tying score is not the one selected. -/
theorem pick_tie_not_first_enumerated_cex :
    devs13.map (fun d => deviceScore d) = [0, 2, 3, 2, 3, 1, 2, 0, 2, 1, 3, 0, 1] ∧
    devs13.map (fun d => d.device) = [1, 2, 3, 4, 5, 6, 7, 8, 9, 10, 11, 12, 13] ∧
    pickPhysicalDevice devs13 = Except.ok 5 :=
  ⟨rfl, rfl, rfl⟩

/-! ## Stability of the selection for at most 12 candidates

`sort.Slice` hands a slice of length at most 12 (`maxInsertion`) directly to
insertion sort, which is stable, so for at most 12 enumerated devices the
selected candidate is the first-enumerated one of maximal score.  The lemmas
below prove this; `pick_tie_not_first_enumerated_cex` above shows the bound
is tight. -/

theorem getD_set_ne {α : Type} (l : List α) (m k : Nat) (x d : α) (h : m ≠ k) :
    (l.set m x).getD k d = l.getD k d := by
  induction l generalizing m k with
  | nil => rfl
  | cons a t ih =>
    cases m with
    | zero =>
      cases k with
      | zero => exact absurd rfl h
      | succ k => rfl
    | succ m =>
      cases k with
      | zero => rfl
      | succ k => exact ih m k (fun hc => h (by rw [hc]))

theorem getD_set_self {α : Type} (l : List α) (m : Nat) (x d : α) (h : m < l.length) :
    (l.set m x).getD m d = x := by
  induction l generalizing m with
  | nil => simp at h
  | cons a t ih =>
    cases m with
    | zero => rfl
    | succ m => exact ih m (by simpa using h)

theorem get?_eq_some_getD {α : Type} (l : List α) (m : Nat) (d : α) (h : m < l.length) :
    l.get? m = some (l.getD m d) := by
  induction l generalizing m with
  | nil => simp at h
  | cons a t ih =>
    cases m with
    | zero => rfl
    | succ m => exact ih m (by simpa using h)

theorem swapGo_length {α : Type} (l : List α) (i j : Int) :
    (swapGo l i j).length = l.length := by
  unfold swapGo
  split
  · split
    · simp
    · rfl
  · rfl

theorem swapGo_natCast {α : Type} (l : List α) (p q : Nat) (hp : p < l.length)
    (hq : q < l.length) (d : α) :
    swapGo l (p : Nat) (q : Nat) = (l.set p (l.getD q d)).set q (l.getD p d) := by
  unfold swapGo
  rw [show ((p : Nat) : Int).toNat = p from rfl, show ((q : Nat) : Int).toNat = q from rfl,
    get?_eq_some_getD l p d hp, get?_eq_some_getD l q d hq]
  simp [Int.natCast_nonneg]

theorem swapGo_getD_fst {α : Type} (l : List α) (p q : Nat) (hp : p < l.length)
    (hq : q < l.length) (d : α) :
    (swapGo l (p : Nat) (q : Nat)).getD p d = l.getD q d := by
  rw [swapGo_natCast l p q hp hq d]
  by_cases hpq : q = p
  · subst hpq
    exact getD_set_self _ _ _ _ (by simpa)
  · rw [getD_set_ne _ _ _ _ _ hpq, getD_set_self _ _ _ _ hp]

theorem swapGo_getD_snd {α : Type} (l : List α) (p q : Nat) (hp : p < l.length)
    (hq : q < l.length) (d : α) :
    (swapGo l (p : Nat) (q : Nat)).getD q d = l.getD p d := by
  rw [swapGo_natCast l p q hp hq d]
  exact getD_set_self _ _ _ _ (by simpa)

theorem swapGo_getD_other {α : Type} (l : List α) (p q k : Nat) (hp : p < l.length)
    (hq : q < l.length) (hkp : k ≠ p) (hkq : k ≠ q) (d : α) :
    (swapGo l (p : Nat) (q : Nat)).getD k d = l.getD k d := by
  rw [swapGo_natCast l p q hp hq d,
    getD_set_ne _ _ _ _ _ (fun hc => hkq hc.symm),
    getD_set_ne _ _ _ _ _ (fun hc => hkp hc.symm)]

theorem getGo_natCast {α : Type} [Inhabited α] (l : List α) (k : Nat) :
    getGo l (k : Nat) = l.getD k default := by
  simp [getGo]

theorem swapGo_getD_gt {α : Type} (l : List α) (i j : Int) (k : Nat) (d : α)
    (hik : i < (k : Nat)) (hjk : j < (k : Nat)) :
    (swapGo l i j).getD k d = l.getD k d := by
  unfold swapGo
  split
  · split
    · next h =>
      rw [getD_set_ne _ _ _ _ _ (by omega), getD_set_ne _ _ _ _ _ (by omega)]
    · rfl
  · rfl

theorem insertionSortInner_length {α : Type} [Inhabited α] (less : α → α → Bool) :
    ∀ (fuel : Nat) (l : List α) (a j : Int),
    (insertionSortInner less fuel l a j).length = l.length := by
  intro fuel
  induction fuel with
  | zero => intro l a j; rfl
  | succ fuel ih =>
    intro l a j
    simp only [insertionSortInner]
    split
    · rw [ih, swapGo_length]
    · rfl

theorem insertionSortInner_frame {α : Type} [Inhabited α] (less : α → α → Bool) :
    ∀ (fuel : Nat) (l : List α) (a j : Int) (k : Nat) (d : α), j < (k : Nat) →
    (insertionSortInner less fuel l a j).getD k d = l.getD k d := by
  intro fuel
  induction fuel with
  | zero => intro l a j k d _; rfl
  | succ fuel ih =>
    intro l a j k d hk
    simp only [insertionSortInner]
    split
    · rw [ih _ _ _ _ _ (by omega), swapGo_getD_gt _ _ _ _ _ hk (by omega)]
    · rfl

theorem swapGo_mem_prefix {α : Type} (l : List α) (p q m : Nat) (d : α)
    (hp : p < m) (hq : q < m) (hm : m ≤ l.length) (y : α) :
    (∃ k, k < m ∧ (swapGo l (p : Nat) (q : Nat)).getD k d = y) ↔
    (∃ k, k < m ∧ l.getD k d = y) := by
  have hpl : p < l.length := lt_of_lt_of_le hp hm
  have hql : q < l.length := lt_of_lt_of_le hq hm
  constructor
  · rintro ⟨k, hk, he⟩
    by_cases hkq : k = q
    · subst hkq
      rw [swapGo_getD_snd l p k hpl hql d] at he
      exact ⟨p, hp, he⟩
    · by_cases hkp : k = p
      · subst hkp
        rw [swapGo_getD_fst l k q hpl hql d] at he
        exact ⟨q, hq, he⟩
      · rw [swapGo_getD_other l p q k hpl hql hkp hkq d] at he
        exact ⟨k, hk, he⟩
  · rintro ⟨k, hk, he⟩
    by_cases hkp : k = p
    · subst hkp
      exact ⟨q, hq, by rw [swapGo_getD_snd l k q hpl hql d]; exact he⟩
    · by_cases hkq : k = q
      · subst hkq
        exact ⟨p, hp, by rw [swapGo_getD_fst l p k hpl hql d]; exact he⟩
      · exact ⟨k, hk, by rw [swapGo_getD_other l p q k hpl hql hkp hkq d]; exact he⟩

theorem insertionSortInner_mem {α : Type} [Inhabited α] (less : α → α → Bool) :
    ∀ (fuel : Nat) (l : List α) (j : Int) (m : Nat), j < (m : Nat) → m ≤ l.length →
    ∀ y, (∃ k, k < m ∧ (insertionSortInner less fuel l 0 j).getD k default = y) ↔
         (∃ k, k < m ∧ l.getD k default = y) := by
  intro fuel
  induction fuel with
  | zero => intro l j m _ _ y; exact Iff.rfl
  | succ fuel ih =>
    intro l j m hjm hm y
    simp only [insertionSortInner]
    split
    · next h =>
      have hj1 : (1 : Int) ≤ j := h.1
      rw [ih (swapGo l j (j - 1)) (j - 1) m (by omega) (by rw [swapGo_length]; exact hm) y]
      have hmem := swapGo_mem_prefix l j.toNat (j.toNat - 1) m default (by omega) (by omega) hm y
      simp only [show ((j.toNat : Nat) : Int) = j from by omega,
        show (((j.toNat - 1 : Nat)) : Int) = j - 1 from by omega] at hmem
      exact hmem
    · exact Iff.rfl

theorem insertionSortInner_head_reaches {α : Type} [Inhabited α] (less : α → α → Bool) :
    ∀ (j : Nat) (l : List α), j < l.length →
    (∀ k, k < j → less (l.getD j default) (l.getD k default) = true) →
    (insertionSortInner less j l 0 (j : Nat)).getD 0 default = l.getD j default := by
  intro j
  induction j with
  | zero => intro l _ _; rfl
  | succ j ih =>
    intro l hlen hall
    have hc1 : ((j + 1 : Nat) : Int) - 1 = ((j : Nat) : Int) := by push_cast; ring
    simp only [insertionSortInner, hc1, getGo_natCast]
    rw [if_pos ⟨by positivity, hall j (Nat.lt_succ_self j)⟩]
    have hswap : (swapGo l ((j + 1 : Nat) : Int) ((j : Nat) : Int)).length = l.length :=
      swapGo_length l _ _
    rw [ih (swapGo l ((j + 1 : Nat) : Int) ((j : Nat) : Int))
      (by rw [hswap]; omega) ?_]
    · exact swapGo_getD_snd l (j + 1) j hlen (by omega) default
    · intro k hk
      rw [swapGo_getD_snd l (j + 1) j hlen (by omega) default,
        swapGo_getD_other l (j + 1) j k hlen (by omega) (by omega) (by omega) default]
      exact hall k (by omega)

theorem insertionSortInner_head_blocked {α : Type} [Inhabited α] (less : α → α → Bool) :
    ∀ (j : Nat) (l : List α) (k0 : Nat), j < l.length → k0 < j →
    less (l.getD j default) (l.getD k0 default) = false →
    (insertionSortInner less j l 0 (j : Nat)).getD 0 default = l.getD 0 default := by
  intro j
  induction j with
  | zero => intro l k0 _ hk0 _; omega
  | succ j ih =>
    intro l k0 hlen hk0 hblock
    have hc1 : ((j + 1 : Nat) : Int) - 1 = ((j : Nat) : Int) := by push_cast; ring
    simp only [insertionSortInner, hc1, getGo_natCast]
    by_cases hcond : less (l.getD (j + 1) default) (l.getD j default) = true
    · rw [if_pos ⟨by positivity, hcond⟩]
      have hk0j : k0 ≠ j := by
        intro hc
        rw [hc] at hblock
        rw [hblock] at hcond
        exact Bool.false_ne_true hcond
      have hk0j' : k0 < j := by omega
      have hj1 : 1 ≤ j := by omega
      rw [ih (swapGo l ((j + 1 : Nat) : Int) ((j : Nat) : Int)) k0
        (by rw [swapGo_length]; omega) hk0j' ?_]
      · exact swapGo_getD_other l (j + 1) j 0 hlen (by omega) (by omega) (by omega) default
      · rw [swapGo_getD_snd l (j + 1) j hlen (by omega) default,
          swapGo_getD_other l (j + 1) j k0 hlen (by omega) (by omega) (by omega) default]
        exact hblock
    · rw [if_neg (fun hc => hcond hc.2)]

theorem score_le_foldl :
    ∀ (xs : List DeviceScoreEntry) (x : DeviceScoreEntry),
    x.Score ≤ (xs.foldl (fun m y => if m.Score < y.Score then y else m) x).Score := by
  intro xs
  induction xs with
  | nil => intro x; exact le_refl _
  | cons z zs ih =>
    intro x
    simp only [List.foldl_cons]
    refine le_trans ?_ (ih (if x.Score < z.Score then z else x))
    split
    · next hlt => exact le_of_lt hlt
    · exact le_refl _

theorem mem_score_le_foldl :
    ∀ (xs : List DeviceScoreEntry) (x y : DeviceScoreEntry), y ∈ x :: xs →
    y.Score ≤ (xs.foldl (fun m y => if m.Score < y.Score then y else m) x).Score := by
  intro xs
  induction xs with
  | nil =>
    intro x y hy
    rw [List.mem_singleton] at hy
    subst hy
    exact le_refl _
  | cons z zs ih =>
    intro x y hy
    simp only [List.foldl_cons]
    rcases List.mem_cons.mp hy with rfl | hy'
    · refine le_trans ?_ (score_le_foldl zs (if y.Score < z.Score then z else y))
      split
      · next hlt => exact le_of_lt hlt
      · exact le_refl _
    · rcases List.mem_cons.mp hy' with rfl | hy''
      · refine le_trans ?_ (score_le_foldl zs (if x.Score < y.Score then y else x))
        split
        · exact le_refl _
        · next hnlt => omega
      · exact ih (if x.Score < z.Score then z else x) y (List.mem_cons_of_mem _ hy'')

theorem foldl_mem :
    ∀ (xs : List DeviceScoreEntry) (x : DeviceScoreEntry),
    xs.foldl (fun m y => if m.Score < y.Score then y else m) x ∈ x :: xs := by
  intro xs
  induction xs with
  | nil => intro x; exact List.mem_singleton_self x
  | cons z zs ih =>
    intro x
    simp only [List.foldl_cons]
    rcases List.mem_cons.mp (ih (if x.Score < z.Score then z else x)) with he | hzs
    · rw [he]
      split
      · exact List.mem_cons_of_mem _ (List.mem_cons_self z zs)
      · exact List.mem_cons_self _ _
    · exact List.mem_cons_of_mem _ (List.mem_cons_of_mem _ hzs)

theorem firstMax_mem (l : List DeviceScoreEntry) (hl : l ≠ []) : firstMax l ∈ l := by
  cases l with
  | nil => exact absurd rfl hl
  | cons x xs => exact foldl_mem xs x

theorem firstMax_ge (l : List DeviceScoreEntry) (y : DeviceScoreEntry) (hy : y ∈ l) :
    y.Score ≤ (firstMax l).Score := by
  cases l with
  | nil => simp at hy
  | cons x xs => exact mem_score_le_foldl xs x y hy

theorem firstMax_append (l : List DeviceScoreEntry) (hl : l ≠ []) (z : DeviceScoreEntry) :
    firstMax (l ++ [z]) = if (firstMax l).Score < z.Score then z else firstMax l := by
  cases l with
  | nil => exact absurd rfl hl
  | cons x xs => simp [firstMax, List.foldl_append]

theorem take_succ_getD {α : Type} (l : List α) (i : Nat) (d : α) (h : i < l.length) :
    l.take (i + 1) = l.take i ++ [l.getD i d] := by
  induction l generalizing i with
  | nil => simp at h
  | cons a t ih =>
    cases i with
    | zero => rfl
    | succ i =>
      simp only [List.take_succ_cons, List.getD_cons_succ, List.cons_append]
      rw [ih i (by simpa using h)]

theorem exists_getD_iff_mem_take {α : Type} (l : List α) (d : α) :
    ∀ (i : Nat), i ≤ l.length →
    ∀ y, (∃ k, k < i ∧ l.getD k d = y) ↔ y ∈ l.take i := by
  intro i
  induction i with
  | zero => intro _ y; simp
  | succ i ih =>
    intro hi y
    rw [take_succ_getD l i d (by omega), List.mem_append, List.mem_singleton,
      ← ih (by omega) y]
    constructor
    · rintro ⟨k, hk, he⟩
      by_cases hki : k = i
      · subst hki
        exact Or.inr he.symm
      · exact Or.inl ⟨k, by omega, he⟩
    · rintro (⟨k, hk, he⟩ | he)
      · exact ⟨k, by omega, he⟩
      · exact ⟨i, by omega, he.symm⟩

theorem insertionSortOuter_head :
    ∀ (fuel i : Nat) (cur orig : List DeviceScoreEntry),
    1 ≤ i → i ≤ orig.length → fuel = orig.length - i → cur.length = orig.length →
    (∀ k : Nat, i ≤ k → k < orig.length → cur.getD k default = orig.getD k default) →
    (∀ y, (∃ k, k < i ∧ cur.getD k default = y) ↔ y ∈ orig.take i) →
    cur.getD 0 default = firstMax (orig.take i) →
    (insertionSortOuter scoreGreater fuel cur 0 ((i : Nat) : Int)
      ((orig.length : Nat) : Int)).getD 0 default = firstMax orig := by
  intro fuel
  induction fuel with
  | zero =>
    intro i cur orig h1 h2 hfuel hlen htail hmem hhead
    have hieq : i = orig.length := by omega
    subst hieq
    rw [List.take_length] at hhead
    simpa [insertionSortOuter] using hhead
  | succ fuel ih =>
    intro i cur orig h1 h2 hfuel hlen htail hmem hhead
    have hilt : i < orig.length := by omega
    simp only [insertionSortOuter]
    rw [if_pos (by exact_mod_cast hilt)]
    rw [show (((i : Nat) : Int) - 0).toNat = i from by omega,
      show ((i : Nat) : Int) + 1 = ((i + 1 : Nat) : Int) from by push_cast; ring]
    have hxeq : cur.getD i default = orig.getD i default := htail i (le_refl i) hilt
    have hicur : i < cur.length := by omega
    have htake_ne : orig.take i ≠ [] := by
      intro hc
      have : (orig.take i).length = i := by
        rw [List.length_take]
        omega
      rw [hc] at this
      simp at this
      omega
    have htake1 : orig.take (i + 1) = orig.take i ++ [orig.getD i default] :=
      take_succ_getD orig i default hilt
    apply ih (i + 1) (insertionSortInner scoreGreater i cur 0 ((i : Nat) : Int)) orig
      (by omega) (by omega) (by omega) (by rw [insertionSortInner_length]; exact hlen)
    · intro k hk hk2
      rw [insertionSortInner_frame scoreGreater i cur 0 ((i : Nat) : Int) k default
        (by exact_mod_cast (by omega : i < k))]
      exact htail k (by omega) hk2
    · intro y
      rw [insertionSortInner_mem scoreGreater i cur ((i : Nat) : Int) (i + 1)
        (by exact_mod_cast Nat.lt_succ_self i) (by omega) y]
      rw [htake1, List.mem_append, List.mem_singleton, ← hmem y]
      constructor
      · rintro ⟨k, hk, he⟩
        by_cases hki : k = i
        · subst hki
          rw [hxeq] at he
          exact Or.inr he.symm
        · exact Or.inl ⟨k, by omega, he⟩
      · rintro (⟨k, hk, he⟩ | he)
        · exact ⟨k, by omega, he⟩
        · exact ⟨i, by omega, by rw [hxeq]; exact he.symm⟩
    · rw [htake1, firstMax_append (orig.take i) htake_ne (orig.getD i default)]
      by_cases hall : ∀ k, k < i → (cur.getD k default).Score < (cur.getD i default).Score
      · rw [insertionSortInner_head_reaches scoreGreater i cur hicur
          (fun k hk => by
            simp only [scoreGreater, decide_eq_true_eq]
            exact hall k hk)]
        rw [if_pos ?_]
        · exact hxeq
        · obtain ⟨k, hk, he⟩ := (hmem (firstMax (orig.take i))).mpr
            (firstMax_mem (orig.take i) htake_ne)
          rw [← hxeq, ← he]
          exact hall k hk
      · push_neg at hall
        obtain ⟨k0, hk0, hge⟩ := hall
        rw [insertionSortInner_head_blocked scoreGreater i cur k0 hicur hk0
          (by
            simp only [scoreGreater, decide_eq_false_iff_not]
            exact Nat.not_lt.mpr hge)]
        rw [if_neg ?_]
        · exact hhead
        · have hk0mem : cur.getD k0 default ∈ orig.take i :=
            (hmem (cur.getD k0 default)).mp ⟨k0, hk0, rfl⟩
          have := firstMax_ge (orig.take i) (cur.getD k0 default) hk0mem
          rw [← hxeq]
          omega

theorem sortSliceGo_insertion {α : Type} [Inhabited α] (less : α → α → Bool) (l : List α)
    (h1 : l ≠ []) (h2 : l.length ≤ 12) :
    sortSliceGo less l = insertionSortGo less l 0 ((l.length : Nat) : Int) := by
  obtain ⟨m, hm⟩ := Nat.exists_eq_succ_of_ne_zero ((List.length_pos.mpr h1).ne')
  unfold sortSliceGo
  rw [hm]
  simp only [pdqsortGo]
  rw [if_pos (show ((m.succ : Nat) : Int) - 0 ≤ 12 from by push_cast; omega)]

theorem insertionSortGo_headD (l : List DeviceScoreEntry) (h : l ≠ []) :
    (insertionSortGo scoreGreater l 0 ((l.length : Nat) : Int)).headD default = firstMax l := by
  have hl1 : 1 ≤ l.length := List.length_pos.mpr h
  have hhd : ∀ t : List DeviceScoreEntry, t.headD default = t.getD 0 default := by
    intro t
    cases t <;> rfl
  rw [hhd]
  unfold insertionSortGo
  rw [show (((l.length : Nat) : Int) - (0 + 1)).toNat = l.length - 1 from by omega,
    show ((0 : Int) + 1) = ((1 : Nat) : Int) from by norm_num]
  have htake1 : l.take 1 = [l.getD 0 default] := by
    rw [show (1 : Nat) = 0 + 1 from rfl, take_succ_getD l 0 default (by omega)]
    rfl
  apply insertionSortOuter_head (l.length - 1) 1 l l (le_refl 1) hl1 rfl rfl
    (fun k _ _ => rfl)
  · intro y
    rw [htake1, List.mem_singleton]
    constructor
    · rintro ⟨k, hk, he⟩
      have : k = 0 := by omega
      subst this
      exact he.symm
    · intro he
      exact ⟨0, by omega, he.symm⟩
  · rw [htake1]
    rfl

/-- C1 amended: for at most 12 enumerated devices, `sort.Slice` falls
through to (stable) insertion sort, so the selected candidate is the
first-enumerated one of maximal score (and the no-suitable-device error is
raised exactly when that candidate's handle is nil). -/
theorem pick_stable_upto_twelve (devices : List DeviceInfo) (h1 : devices ≠ [])
    (h2 : devices.length ≤ 12) :
    pickPhysicalDevice devices =
      if (firstMax (devices.map mkCandidate)).Device = 0 then
        Except.error PickError.noSuitableDevice
      else Except.ok (firstMax (devices.map mkCandidate)).Device := by
  have hcne : devices.map mkCandidate ≠ [] := by
    simpa using h1
  have hclen : (devices.map mkCandidate).length = devices.length := List.length_map _ _
  have hbody : pickPhysicalDevice devices =
      if ((sortSliceGo scoreGreater (devices.map mkCandidate)).headD default).Device = 0
        then Except.error PickError.noSuitableDevice
        else Except.ok
          ((sortSliceGo scoreGreater (devices.map mkCandidate)).headD default).Device := by
    unfold pickPhysicalDevice
    rw [if_neg (by simpa using (List.length_pos.mpr h1).ne')]
  rw [hbody, sortSliceGo_insertion scoreGreater (devices.map mkCandidate) hcne (by omega),
    insertionSortGo_headD (devices.map mkCandidate) hcne]

/-- Witness for the amended C1: two devices with equal scores, the
first-enumerated one (handle 21) is selected. -/
theorem pick_stable_upto_twelve_witness :
    pickPhysicalDevice [⟨21, 1, 7, false, "a"⟩, ⟨22, 1, 7, false, "b"⟩] = Except.ok 21 :=
  (pick_stable_upto_twelve [⟨21, 1, 7, false, "a"⟩, ⟨22, 1, 7, false, "b"⟩]
    (List.cons_ne_nil _ _) (by norm_num)).trans rfl
